import Mathlib

/-!
# Verification of the Sentry SvelteKit SDK tracing glue

Shallow embedding of the trace-context codec and the instrumentation
wrappers found in `packages/utils/src/tracing.ts`,
`packages/sveltekit/src/server/index.ts` (handle) and
`packages/sveltekit/src/client/load.ts`, together with theorems about
the behaviour of those functions.

Strings are embedded as Lean `String`/`List Char`; JavaScript
`undefined`/`null` values are embedded as `Option`; the
`TRACEPARENT_REGEXP` match is embedded as an executable backtracking
matcher that follows the structure of the regular expression literally.
-/

namespace SentrySvelteKit

/-! ## Character classes -/

/-- The character class `[0-9a-f]` of `TRACEPARENT_REGEXP` (lowercase hex). -/
def isLHexDigit (c : Char) : Bool :=
  ('0' ≤ c && c ≤ '9') || ('a' ≤ c && c ≤ 'f')

/-- The character class `[ \t]` used for whitespace in `TRACEPARENT_REGEXP`
(space and horizontal tab only). -/
def isSpaceTab (c : Char) : Bool :=
  c = ' ' || c = '\t'

/-- Modelled from the spec: the JavaScript regular-expression class `\s`
used by the spec's skeleton `^\s*([0-9a-f]{32})?-?([0-9a-f]{16})?-?([01])?\s*$`.
It contains the ASCII whitespace characters (space, tab, line feed,
vertical tab, form feed, carriage return) and the Unicode space
characters recognised by JavaScript. -/
def isJsWs (c : Char) : Bool :=
  c = ' ' || c = '\t' || c = '\n' || c = '\r' ||
  c = Char.ofNat 0x0b || c = Char.ofNat 0x0c ||
  c = Char.ofNat 0xa0 || c = Char.ofNat 0x1680 ||
  (Char.ofNat 0x2000 ≤ c && c ≤ Char.ofNat 0x200a) ||
  c = Char.ofNat 0x2028 || c = Char.ofNat 0x2029 ||
  c = Char.ofNat 0x202f || c = Char.ofNat 0x205f ||
  c = Char.ofNat 0x3000 || c = Char.ofNat 0xfeff

/-! ## Backtracking matcher for `TRACEPARENT_REGEXP`

The source builds the regular expression

```
^[ \t]*([0-9a-f]{32})?-?([0-9a-f]{16})?-?([01])?[ \t]*$
```

None of the characters matched by the three capture groups or the two
optional hyphens is a space or a tab, so a successful match decomposes
the subject uniquely into a maximal whitespace prefix, a core matched by
`([0-9a-f]{32})?-?([0-9a-f]{16})?-?([01])?`, and a maximal whitespace
suffix.  `matchTraceparent` therefore strips the whitespace first and
then runs a backtracking matcher on the core, trying the greedy
alternative of every optional element first, exactly as the JavaScript
engine does. -/

/-- The three capture groups of `TRACEPARENT_REGEXP`. -/
abbrev TraceparentCaps := Option (List Char) × Option (List Char) × Option Char

/-- Take exactly `n` leading characters satisfying `p`, returning them and
the remainder of the list. -/
def takeExact (p : Char → Bool) : Nat → List Char → Option (List Char × List Char)
  | 0, cs => some ([], cs)
  | _ + 1, [] => none
  | n + 1, c :: cs =>
    if p c then
      match takeExact p n cs with
      | some (g, rest) => some (c :: g, rest)
      | none => none
    else none

/-- First-success alternation used for the backtracking branches. -/
def obranch {α : Type} (a b : Option α) : Option α :=
  match a with
  | some x => some x
  | none => b

/-- Matcher for the tail `([01])?$` of the core. -/
def matchTail3 (g1 g2 : Option (List Char)) : List Char → Option TraceparentCaps
  | [] => some (g1, g2, none)
  | [c] => if c = '0' || c = '1' then some (g1, g2, some c) else none
  | _ => none

/-- Matcher for the tail `-?([01])?$` of the core. -/
def matchTail2 (g1 g2 : Option (List Char)) (cs : List Char) : Option TraceparentCaps :=
  match cs with
  | c :: rest =>
    if c = '-' then obranch (matchTail3 g1 g2 rest) (matchTail3 g1 g2 (c :: rest))
    else matchTail3 g1 g2 (c :: rest)
  | [] => matchTail3 g1 g2 []

/-- Matcher for the tail `([0-9a-f]{16})?-?([01])?$` of the core. -/
def matchTail1 (g1 : Option (List Char)) (cs : List Char) : Option TraceparentCaps :=
  obranch
    (match takeExact isLHexDigit 16 cs with
     | some (g, rest) => matchTail2 g1 (some g) rest
     | none => none)
    (matchTail2 g1 none cs)

/-- Matcher for the tail `-?([0-9a-f]{16})?-?([01])?$` of the core. -/
def matchHyp1 (g1 : Option (List Char)) (cs : List Char) : Option TraceparentCaps :=
  match cs with
  | c :: rest =>
    if c = '-' then obranch (matchTail1 g1 rest) (matchTail1 g1 (c :: rest))
    else matchTail1 g1 (c :: rest)
  | [] => matchTail1 g1 []

/-- Matcher for the whole core `([0-9a-f]{32})?-?([0-9a-f]{16})?-?([01])?`
(anchored on both sides). -/
def matchCore (cs : List Char) : Option TraceparentCaps :=
  obranch
    (match takeExact isLHexDigit 32 cs with
     | some (g, rest) => matchHyp1 (some g) rest
     | none => none)
    (matchHyp1 none cs)

/-- Strip the maximal prefix and suffix of characters satisfying `p`. -/
def stripEnds (p : Char → Bool) (cs : List Char) : List Char :=
  ((cs.dropWhile p).reverse.dropWhile p).reverse

/-- Matching a character list against `TRACEPARENT_REGEXP`, returning the
three capture groups on success. -/
def matchTraceparent (cs : List Char) : Option TraceparentCaps :=
  matchCore (stripEnds isSpaceTab cs)

/-! ## `extractTraceparentData` (packages/utils/src/tracing.ts) -/

/-- `TraceparentData` of `@sentry/types`: the result object built by
`extractTraceparentData`.  Absent fields are `Option.none`. -/
structure TraceparentData where
  traceId : Option String
  parentSampled : Option Bool
  parentSpanId : Option String
deriving DecidableEq, Repr

/-- `extractTraceparentData` from `packages/utils/src/tracing.ts`: match the
input against `TRACEPARENT_REGEXP`; on an empty string or no match return
`undefined` (here `none`); otherwise build the `TraceparentData` object,
with `parentSampled` set from the third group (`'1'` ↦ `true`,
`'0'` ↦ `false`, otherwise absent) and the first two groups copied
verbatim. -/
def extractTraceparentData (traceparent : String) : Option TraceparentData :=
  match matchTraceparent traceparent.data with
  | none => none
  | some (g1, g2, g3) =>
    if traceparent = "" then none
    else
      some
        { traceId := g1.map String.mk
          parentSampled :=
            match g3 with
            | some c => if c = '1' then some true else if c = '0' then some false else none
            | none => none
          parentSpanId := g2.map String.mk }

/-! ## Declarative skeleton decompositions -/

/-- The characters contributed by an optional capture group. -/
def optChars : Option (List Char) → List Char
  | some l => l
  | none => []

/-- The characters contributed by an optional one-character capture group. -/
def optChar : Option Char → List Char
  | some c => [c]
  | none => []

/-- Declarative reading of the core
`([0-9a-f]{32})?-?([0-9a-f]{16})?-?([01])?` : `cs` decomposes into the
three optional groups separated by optional hyphens. -/
def CoreDecomp (cs : List Char) (g1 g2 : Option (List Char)) (g3 : Option Char) : Prop :=
  ∃ h1 h2 : List Char,
    cs = optChars g1 ++ h1 ++ optChars g2 ++ h2 ++ optChar g3 ∧
    (h1 = [] ∨ h1 = ['-']) ∧ (h2 = [] ∨ h2 = ['-']) ∧
    (∀ l, g1 = some l → l.length = 32 ∧ l.all isLHexDigit) ∧
    (∀ l, g2 = some l → l.length = 16 ∧ l.all isLHexDigit) ∧
    (∀ c, g3 = some c → c = '0' ∨ c = '1')

/-- Declarative reading of the full traceparent skeleton with whitespace
class `ws`: whitespace, then the three individually optional
hyphen-separated groups, then whitespace, with the given captures. -/
def SkeletonCaps (ws : Char → Bool) (cs : List Char)
    (g1 g2 : Option (List Char)) (g3 : Option Char) : Prop :=
  ∃ w1 mid w2, cs = w1 ++ mid ++ w2 ∧
    w1.all ws ∧ w2.all ws ∧ CoreDecomp mid g1 g2 g3

/-- The traceparent skeleton matches `cs` (for whitespace class `ws`). -/
def SkeletonMatch (ws : Char → Bool) (cs : List Char) : Prop :=
  ∃ g1 g2 g3, SkeletonCaps ws cs g1 g2 g3

/-! ## Soundness and completeness of the matcher -/

theorem takeExact_sound {p : Char → Bool} :
    ∀ {n : Nat} {cs g rest : List Char}, takeExact p n cs = some (g, rest) →
      cs = g ++ rest ∧ g.length = n ∧ g.all p = true := by
  intro n
  induction n with
  | zero =>
    intro cs g rest h
    simp only [takeExact, Option.some.injEq, Prod.mk.injEq] at h
    simp [← h.1, ← h.2]
  | succ n ih =>
    intro cs g rest h
    cases cs with
    | nil => simp [takeExact] at h
    | cons c cs' =>
      simp only [takeExact] at h
      by_cases hpc : p c
      · rw [if_pos hpc] at h
        cases htk : takeExact p n cs' with
        | none => rw [htk] at h; exact absurd h (by simp)
        | some pr =>
          obtain ⟨g', rest'⟩ := pr
          rw [htk] at h
          simp only [Option.some.injEq, Prod.mk.injEq] at h
          obtain ⟨hcs, hlen, hall⟩ := ih htk
          refine ⟨?_, ?_, ?_⟩
          · rw [← h.1, ← h.2, hcs]; rfl
          · rw [← h.1]; simp [hlen]
          · rw [← h.1]; simp [hpc, hall]
      · rw [if_neg hpc] at h; exact absurd h (by simp)

theorem takeExact_complete {p : Char → Bool} :
    ∀ {g rest : List Char}, g.all p = true → takeExact p g.length (g ++ rest) = some (g, rest) := by
  intro g
  induction g with
  | nil => intro rest _; rfl
  | cons c g' ih =>
    intro rest hall
    simp only [List.all_cons, Bool.and_eq_true] at hall
    simp only [List.length_cons, List.cons_append, takeExact, if_pos hall.1, List.append_eq,
      ih hall.2]

theorem obranch_eq_some {α : Type} {a b : Option α} {x : α} :
    obranch a b = some x ↔ a = some x ∨ (a = none ∧ b = some x) := by
  cases a <;> simp [obranch]

theorem obranch_isSome_left {α : Type} {a : Option α} (b : Option α) (h : a.isSome) :
    (obranch a b).isSome := by
  cases a <;> simp_all [obranch]

theorem obranch_isSome_right {α : Type} (a : Option α) {b : Option α} (h : b.isSome) :
    (obranch a b).isSome := by
  cases a <;> simp_all [obranch]

theorem matchTail3_sound {p q g1 g2 : Option (List Char)} {g3 : Option Char} {cs : List Char}
    (h : matchTail3 p q cs = some (g1, g2, g3)) :
    g1 = p ∧ g2 = q ∧ cs = optChar g3 ∧ (∀ c, g3 = some c → c = '0' ∨ c = '1') := by
  match cs with
  | [] =>
    simp only [matchTail3, Option.some.injEq, Prod.mk.injEq] at h
    refine ⟨h.1.symm, h.2.1.symm, ?_, ?_⟩
    · rw [← h.2.2]; rfl
    · intro c hc; rw [← h.2.2] at hc; exact absurd hc (by simp)
  | [c] =>
    simp only [matchTail3] at h
    by_cases hc : (c = '0' || c = '1') = true
    · rw [if_pos hc] at h
      simp only [Option.some.injEq, Prod.mk.injEq] at h
      refine ⟨h.1.symm, h.2.1.symm, ?_, ?_⟩
      · rw [← h.2.2]; rfl
      · intro d hd; rw [← h.2.2] at hd
        simp only [Option.some.injEq] at hd
        subst hd
        simpa using hc
    · rw [if_neg hc] at h; exact absurd h (by simp)
  | c1 :: c2 :: rest => simp [matchTail3] at h

theorem matchTail2_sound {p q g1 g2 : Option (List Char)} {g3 : Option Char} {cs : List Char}
    (h : matchTail2 p q cs = some (g1, g2, g3)) :
    g1 = p ∧ g2 = q ∧
      (∃ h2, (h2 = [] ∨ h2 = ['-']) ∧ cs = h2 ++ optChar g3) ∧
      (∀ c, g3 = some c → c = '0' ∨ c = '1') := by
  match cs with
  | [] =>
    simp only [matchTail2] at h
    obtain ⟨e1, e2, e3, e4⟩ := matchTail3_sound h
    exact ⟨e1, e2, ⟨[], Or.inl rfl, e3⟩, e4⟩
  | c :: rest =>
    simp only [matchTail2] at h
    by_cases hc : c = '-'
    · rw [if_pos hc] at h
      rcases obranch_eq_some.mp h with h' | ⟨_, h'⟩
      · obtain ⟨e1, e2, e3, e4⟩ := matchTail3_sound h'
        exact ⟨e1, e2, ⟨['-'], Or.inr rfl, by rw [← e3, hc]; rfl⟩, e4⟩
      · obtain ⟨e1, e2, e3, e4⟩ := matchTail3_sound h'
        exact ⟨e1, e2, ⟨[], Or.inl rfl, by rw [← e3]; rfl⟩, e4⟩
    · rw [if_neg hc] at h
      obtain ⟨e1, e2, e3, e4⟩ := matchTail3_sound h
      exact ⟨e1, e2, ⟨[], Or.inl rfl, by rw [← e3]; rfl⟩, e4⟩

theorem matchTail1_sound {p g1 g2 : Option (List Char)} {g3 : Option Char} {cs : List Char}
    (h : matchTail1 p cs = some (g1, g2, g3)) :
    g1 = p ∧ (∀ l, g2 = some l → l.length = 16 ∧ l.all isLHexDigit = true) ∧
      (∃ h2, (h2 = [] ∨ h2 = ['-']) ∧ cs = optChars g2 ++ h2 ++ optChar g3) ∧
      (∀ c, g3 = some c → c = '0' ∨ c = '1') := by
  unfold matchTail1 at h
  rcases obranch_eq_some.mp h with h' | ⟨_, h'⟩
  · cases htk : takeExact isLHexDigit 16 cs with
    | none => rw [htk] at h'; exact absurd h' (by simp)
    | some pr =>
      obtain ⟨g, rest⟩ := pr
      rw [htk] at h'
      obtain ⟨e1, e2, ⟨h2, hh2, hrest⟩, e4⟩ := matchTail2_sound h'
      obtain ⟨hcs, hlen, hall⟩ := takeExact_sound htk
      subst e2
      refine ⟨e1, ?_, ⟨h2, hh2, ?_⟩, e4⟩
      · intro l hl
        simp only [Option.some.injEq] at hl
        subst hl; exact ⟨hlen, hall⟩
      · rw [hcs, hrest]; simp [optChars]
  · obtain ⟨e1, e2, ⟨h2, hh2, hrest⟩, e4⟩ := matchTail2_sound h'
    subst e2
    refine ⟨e1, by simp, ⟨h2, hh2, ?_⟩, e4⟩
    rw [hrest]; simp [optChars]

theorem matchHyp1_sound {p : Option (List Char)} {caps : TraceparentCaps} {cs : List Char}
    (h : matchHyp1 p cs = some caps) :
    ∃ h1 rest, (h1 = [] ∨ h1 = ['-']) ∧ cs = h1 ++ rest ∧ matchTail1 p rest = some caps := by
  match cs with
  | [] =>
    simp only [matchHyp1] at h
    exact ⟨[], [], Or.inl rfl, rfl, h⟩
  | c :: rest =>
    simp only [matchHyp1] at h
    by_cases hc : c = '-'
    · rw [if_pos hc] at h
      rcases obranch_eq_some.mp h with h' | ⟨_, h'⟩
      · exact ⟨['-'], rest, Or.inr rfl, by rw [hc]; rfl, h'⟩
      · exact ⟨[], c :: rest, Or.inl rfl, rfl, h'⟩
    · rw [if_neg hc] at h
      exact ⟨[], c :: rest, Or.inl rfl, rfl, h⟩

theorem matchCore_sound {g1 g2 : Option (List Char)} {g3 : Option Char} {cs : List Char}
    (h : matchCore cs = some (g1, g2, g3)) : CoreDecomp cs g1 g2 g3 := by
  unfold matchCore at h
  rcases obranch_eq_some.mp h with h' | ⟨_, h'⟩
  · cases htk : takeExact isLHexDigit 32 cs with
    | none => rw [htk] at h'; exact absurd h' (by simp)
    | some pr =>
      obtain ⟨g, rest⟩ := pr
      rw [htk] at h'
      obtain ⟨hcs, hlen, hall⟩ := takeExact_sound htk
      obtain ⟨h1, rest', hh1, hrest, htail⟩ := matchHyp1_sound h'
      obtain ⟨e1, e2, ⟨h2, hh2, hrest'⟩, e4⟩ := matchTail1_sound htail
      subst e1
      refine ⟨h1, h2, ?_, hh1, hh2, ?_, e2, e4⟩
      · rw [hcs, hrest, hrest']; simp [optChars]
      · intro l hl
        simp only [Option.some.injEq] at hl
        subst hl; exact ⟨hlen, hall⟩
  · obtain ⟨h1, rest', hh1, hrest, htail⟩ := matchHyp1_sound h'
    obtain ⟨e1, e2, ⟨h2, hh2, hrest'⟩, e4⟩ := matchTail1_sound htail
    subst e1
    refine ⟨h1, h2, ?_, hh1, hh2, by simp, e2, e4⟩
    rw [hrest, hrest']; simp [optChars]

theorem matchTail3_isSome {p q : Option (List Char)} {g3 : Option Char}
    (hg3 : ∀ c, g3 = some c → c = '0' ∨ c = '1') :
    (matchTail3 p q (optChar g3)).isSome := by
  cases g3 with
  | none => simp [optChar, matchTail3]
  | some c =>
    rcases hg3 c rfl with hc | hc <;> subst hc <;> simp [optChar, matchTail3]

theorem matchTail2_isSome {p q : Option (List Char)} {g3 : Option Char} {h2 : List Char}
    (hh2 : h2 = [] ∨ h2 = ['-']) (hg3 : ∀ c, g3 = some c → c = '0' ∨ c = '1') :
    (matchTail2 p q (h2 ++ optChar g3)).isSome := by
  rcases hh2 with hh2 | hh2 <;> subst hh2
  · cases g3 with
    | none => simp [optChar, matchTail2, matchTail3]
    | some c =>
      rcases hg3 c rfl with hc | hc <;> subst hc <;>
        simp [optChar, matchTail2, matchTail3]
  · simp only [List.cons_append, List.nil_append, matchTail2, if_pos rfl]
    exact obranch_isSome_left _ (matchTail3_isSome hg3)

theorem matchTail1_isSome {p g2 : Option (List Char)} {g3 : Option Char} {h2 : List Char}
    (hg2 : ∀ l, g2 = some l → l.length = 16 ∧ l.all isLHexDigit = true)
    (hh2 : h2 = [] ∨ h2 = ['-']) (hg3 : ∀ c, g3 = some c → c = '0' ∨ c = '1') :
    (matchTail1 p (optChars g2 ++ h2 ++ optChar g3)).isSome := by
  unfold matchTail1
  cases g2 with
  | none =>
    exact obranch_isSome_right _ (by simpa [optChars] using matchTail2_isSome (p := p) (q := none) hh2 hg3)
  | some g =>
    obtain ⟨hlen, hall⟩ := hg2 g rfl
    have htk : takeExact isLHexDigit 16 (g ++ (h2 ++ optChar g3)) = some (g, h2 ++ optChar g3) := by
      rw [← hlen]; exact takeExact_complete hall
    apply obranch_isSome_left
    simp only [optChars, List.append_assoc, htk]
    exact matchTail2_isSome hh2 hg3

theorem matchHyp1_isSome_skip {p : Option (List Char)} {cs : List Char}
    (h : (matchTail1 p cs).isSome) : (matchHyp1 p cs).isSome := by
  match cs with
  | [] => simpa [matchHyp1] using h
  | c :: rest =>
    simp only [matchHyp1]
    by_cases hc : c = '-'
    · rw [if_pos hc]; exact obranch_isSome_right _ h
    · rw [if_neg hc]; exact h

theorem matchHyp1_isSome {p : Option (List Char)} {h1 rest : List Char}
    (hh1 : h1 = [] ∨ h1 = ['-']) (h : (matchTail1 p rest).isSome) :
    (matchHyp1 p (h1 ++ rest)).isSome := by
  rcases hh1 with hh1 | hh1 <;> subst hh1
  · exact matchHyp1_isSome_skip h
  · simp only [List.cons_append, List.nil_append, matchHyp1, if_pos rfl]
    exact obranch_isSome_left _ h

theorem matchCore_isSome {g1 g2 : Option (List Char)} {g3 : Option Char} {cs : List Char}
    (h : CoreDecomp cs g1 g2 g3) : (matchCore cs).isSome := by
  obtain ⟨h1, h2, hcs, hh1, hh2, hg1, hg2, hg3⟩ := h
  unfold matchCore
  cases g1 with
  | none =>
    apply obranch_isSome_right
    subst hcs
    simpa [optChars, List.append_assoc] using matchHyp1_isSome (p := none) hh1 (matchTail1_isSome hg2 hh2 hg3)
  | some g =>
    obtain ⟨hlen, hall⟩ := hg1 g rfl
    have htk : takeExact isLHexDigit 32
        (g ++ (h1 ++ (optChars g2 ++ h2 ++ optChar g3))) =
        some (g, h1 ++ (optChars g2 ++ h2 ++ optChar g3)) := by
      rw [← hlen]; exact takeExact_complete hall
    apply obranch_isSome_left
    subst hcs
    simp only [optChars, List.append_assoc] at htk ⊢
    rw [htk]
    exact matchHyp1_isSome hh1 (by simpa [List.append_assoc] using matchTail1_isSome hg2 hh2 hg3)

/-! ## Whitespace stripping -/

theorem dropWhile_append_all {p : Char → Bool} {w l : List Char} (h : w.all p = true) :
    (w ++ l).dropWhile p = l.dropWhile p := by
  induction w with
  | nil => rfl
  | cons c w' ih =>
    simp only [List.all_cons, Bool.and_eq_true] at h
    simp only [List.cons_append, List.dropWhile_cons, h.1, if_pos]
    exact ih h.2

theorem dropWhile_all_nil {p : Char → Bool} {w : List Char} (h : w.all p = true) :
    w.dropWhile p = [] := by
  have := dropWhile_append_all (l := []) h
  simpa using this

theorem dropWhile_of_forall_false {p : Char → Bool} {l : List Char}
    (h : ∀ c ∈ l, p c = false) : l.dropWhile p = l := by
  cases l with
  | nil => rfl
  | cons c l' =>
    simp only [List.dropWhile_cons, h c (by simp)]
    simp

theorem stripEnds_of_decomp {p : Char → Bool} {w1 mid w2 : List Char}
    (hw1 : w1.all p = true) (hw2 : w2.all p = true)
    (hmid : ∀ c ∈ mid, p c = false) :
    stripEnds p (w1 ++ mid ++ w2) = mid := by
  unfold stripEnds
  rw [List.append_assoc, dropWhile_append_all hw1]
  cases mid with
  | nil =>
    simp only [List.nil_append]
    rw [dropWhile_all_nil hw2]
    rfl
  | cons m ms =>
    rw [show (m :: ms) ++ w2 = m :: (ms ++ w2) from rfl]
    rw [List.dropWhile_cons, hmid m (by simp)]
    simp only [Bool.false_eq_true, if_false]
    rw [show m :: (ms ++ w2) = (m :: ms) ++ w2 from rfl]
    rw [List.reverse_append, dropWhile_append_all (by simpa using hw2)]
    rw [dropWhile_of_forall_false
      (by intro c hc; rw [List.mem_reverse] at hc; exact hmid c hc)]
    simp

theorem stripEnds_decomp (p : Char → Bool) (cs : List Char) :
    ∃ w1 w2, cs = w1 ++ stripEnds p cs ++ w2 ∧ w1.all p = true ∧ w2.all p = true := by
  have hd : cs.dropWhile p =
      stripEnds p cs ++ ((cs.dropWhile p).reverse.takeWhile p).reverse := by
    conv_lhs => rw [← List.reverse_reverse (cs.dropWhile p)]
    conv_lhs =>
      rw [← List.takeWhile_append_dropWhile (p := p) (l := (cs.dropWhile p).reverse)]
    rw [List.reverse_append]
    rfl
  refine ⟨cs.takeWhile p, ((cs.dropWhile p).reverse.takeWhile p).reverse, ?_, ?_, ?_⟩
  · conv_lhs => rw [← List.takeWhile_append_dropWhile (p := p) (l := cs), hd]
    rw [List.append_assoc]
  · simp only [List.all_eq_true]
    intro c hc
    exact List.mem_takeWhile_imp hc
  · simp only [List.all_eq_true]
    intro c hc
    rw [List.mem_reverse] at hc
    exact List.mem_takeWhile_imp hc

/-! ## Characters of the core are never whitespace -/

theorem isLHexDigit_not_spaceTab {c : Char} (h : isLHexDigit c = true) :
    isSpaceTab c = false := by
  by_contra hws
  rw [Bool.not_eq_false] at hws
  simp only [isSpaceTab, Bool.or_eq_true, decide_eq_true_eq] at hws
  rcases hws with hc | hc <;> subst hc <;> simp [isLHexDigit] at h

theorem coreDecomp_no_spaceTab {cs : List Char} {g1 g2 : Option (List Char)} {g3 : Option Char}
    (h : CoreDecomp cs g1 g2 g3) : ∀ c ∈ cs, isSpaceTab c = false := by
  obtain ⟨h1, h2, hcs, hh1, hh2, hg1, hg2, hg3⟩ := h
  intro c hc
  rw [hcs] at hc
  simp only [List.mem_append] at hc
  rcases hc with ((((hc | hc) | hc) | hc) | hc)
  · cases g1 with
    | none => simp [optChars] at hc
    | some l =>
      have := (hg1 l rfl).2
      rw [List.all_eq_true] at this
      exact isLHexDigit_not_spaceTab (by simpa using this c (by simpa [optChars] using hc))
  · rcases hh1 with hh1 | hh1 <;> subst hh1 <;> simp at hc
    · subst hc; rfl
  · cases g2 with
    | none => simp [optChars] at hc
    | some l =>
      have := (hg2 l rfl).2
      rw [List.all_eq_true] at this
      exact isLHexDigit_not_spaceTab (by simpa using this c (by simpa [optChars] using hc))
  · rcases hh2 with hh2 | hh2 <;> subst hh2 <;> simp at hc
    · subst hc; rfl
  · cases g3 with
    | none => simp [optChar] at hc
    | some d =>
      simp only [optChar, List.mem_singleton] at hc
      subst hc
      rcases hg3 c rfl with hc | hc <;> subst hc <;> rfl

/-! ## The matcher decides the skeleton -/

theorem matchTraceparent_sound {cs : List Char} {g1 g2 : Option (List Char)} {g3 : Option Char}
    (h : matchTraceparent cs = some (g1, g2, g3)) : SkeletonCaps isSpaceTab cs g1 g2 g3 := by
  obtain ⟨w1, w2, hcs, hw1, hw2⟩ := stripEnds_decomp isSpaceTab cs
  exact ⟨w1, stripEnds isSpaceTab cs, w2, hcs, hw1, hw2, matchCore_sound h⟩

theorem matchTraceparent_isSome {cs : List Char}
    (h : SkeletonMatch isSpaceTab cs) : (matchTraceparent cs).isSome := by
  obtain ⟨g1, g2, g3, w1, mid, w2, hcs, hw1, hw2, hcore⟩ := h
  unfold matchTraceparent
  rw [hcs, stripEnds_of_decomp hw1 hw2 (coreDecomp_no_spaceTab hcore)]
  exact matchCore_isSome hcore

/-! ## C1 -/

/-- The `parentSampled` value computed by `extractTraceparentData` from the
third capture group. -/
def sampledOfFlag : Option Char → Option Bool
  | some c => if c = '1' then some true else if c = '0' then some false else none
  | none => none

theorem extract_eq_none_of_match {s : String} (hm : matchTraceparent s.data = none) :
    extractTraceparentData s = none := by
  unfold extractTraceparentData
  rw [hm]

theorem extract_eq_of_match {s : String} {g1 g2 : Option (List Char)} {g3 : Option Char}
    (hm : matchTraceparent s.data = some (g1, g2, g3)) :
    extractTraceparentData s =
      if s = "" then none
      else
        some
          { traceId := g1.map String.mk
            parentSampled := sampledOfFlag g3
            parentSpanId := g2.map String.mk } := by
  unfold extractTraceparentData
  conv_lhs => rw [hm]
  rfl

/-- C1 (amended): `extractTraceparentData s` succeeds exactly when `s` is
non-empty and matches the traceparent skeleton whose whitespace is
restricted to spaces and tabs (the `[ \t]*` of `TRACEPARENT_REGEXP`, not
the `\s*` of the spec); on empty string or no match it returns no-data
(`none`) rather than throwing; on success the result's `parentSampled` is
`true` iff the flag digit is `'1'`, `false` iff it is `'0'`, and absent
otherwise, with `traceId` and `parentSpanId` copied verbatim from the
matched groups or absent when not captured. -/
theorem extractTraceparentData_correct (s : String) :
    ((extractTraceparentData s).isSome ↔ (s ≠ "" ∧ SkeletonMatch isSpaceTab s.data)) ∧
    (∀ d, extractTraceparentData s = some d →
      ∃ g1 g2 g3, SkeletonCaps isSpaceTab s.data g1 g2 g3 ∧
        d.traceId = g1.map String.mk ∧ d.parentSpanId = g2.map String.mk ∧
        (g3 = some '1' → d.parentSampled = some true) ∧
        (g3 = some '0' → d.parentSampled = some false) ∧
        (g3 = none → d.parentSampled = none)) := by
  constructor
  · constructor
    · intro h
      cases hm : matchTraceparent s.data with
      | none => rw [extract_eq_none_of_match hm] at h; simp at h
      | some caps =>
        obtain ⟨g1, g2, g3⟩ := caps
        rw [extract_eq_of_match hm] at h
        by_cases hs : s = ""
        · rw [if_pos hs] at h; simp at h
        · exact ⟨hs, g1, g2, g3, matchTraceparent_sound hm⟩
    · rintro ⟨hne, hsk⟩
      have hm := matchTraceparent_isSome hsk
      rw [Option.isSome_iff_exists] at hm
      obtain ⟨caps, hm⟩ := hm
      obtain ⟨g1, g2, g3⟩ := caps
      rw [extract_eq_of_match hm, if_neg hne]
      rfl
  · intro d hd
    cases hm : matchTraceparent s.data with
    | none => rw [extract_eq_none_of_match hm] at hd; simp at hd
    | some caps =>
      obtain ⟨g1, g2, g3⟩ := caps
      rw [extract_eq_of_match hm] at hd
      by_cases hs : s = ""
      · rw [if_pos hs] at hd; simp at hd
      · rw [if_neg hs] at hd
        simp only [Option.some.injEq] at hd
        refine ⟨g1, g2, g3, matchTraceparent_sound hm, ?_, ?_, ?_, ?_, ?_⟩
        · rw [← hd]
        · rw [← hd]
        · intro h1; subst h1; rw [← hd]; rfl
        · intro h0; subst h0; rw [← hd]; rfl
        · intro hn; subst hn; rw [← hd]; rfl

/-- Witness for C1's theorem at a concrete fully-populated header. -/
theorem extractTraceparentData_correct_witness :
    (extractTraceparentData "0123456789abcdef0123456789abcdef-0123456789abcdef-1" =
      some ⟨some "0123456789abcdef0123456789abcdef", some true, some "0123456789abcdef"⟩) ∧
    ∃ g1 g2 g3, SkeletonCaps isSpaceTab
      ("0123456789abcdef0123456789abcdef-0123456789abcdef-1" : String).data g1 g2 g3 := by
  constructor
  · decide
  · obtain ⟨g1, g2, g3, hsk, _⟩ :=
      (extractTraceparentData_correct
        "0123456789abcdef0123456789abcdef-0123456789abcdef-1").2
        ⟨some "0123456789abcdef0123456789abcdef", some true, some "0123456789abcdef"⟩
        (by decide)
    exact ⟨g1, g2, g3, hsk⟩

/-- C1 counterexample: the string consisting of a single line feed is
non-empty and matches the spec's skeleton regex (whose whitespace class is
the JavaScript `\s`), yet `extractTraceparentData` rejects it, because the
source regex only allows spaces and tabs as whitespace.  So parsing does
not succeed exactly on the non-empty strings matching the spec's regex. -/
theorem extractTraceparentData_claim_counterexample :
    ("\n" : String) ≠ "" ∧ SkeletonMatch isJsWs ("\n" : String).data ∧
      extractTraceparentData "\n" = none := by
  refine ⟨by decide, ⟨none, none, none, ['\n'], [], [], by rfl, by decide, by decide,
    ⟨[], [], by rfl, Or.inl rfl, Or.inl rfl, by simp, by simp, by simp⟩⟩, by decide⟩

/-! ## `addTracingHeadersToFetchRequest` (packages/utils/src/tracing.ts)

The two header values computed on entry — `span.toTraceparent()` and
`dynamicSamplingContextToSentryBaggageHeader(dynamicSamplingContext)` —
are produced by external collaborators (`@sentry/types` span objects and
`baggage.ts`, which is not part of the sources), so the embedding takes
them as the parameters `sentryTraceHeader` and `sentryBaggageHeader`.
A JavaScript `string | undefined` is `Option String`; `none` and
`some ""` are both falsy.

A header container is one of the three shapes of
`PolymorphicRequestHeaders`; the plain-mapping shape is embedded as a
total function from keys to values, where `HVal.undef` stands for an
absent key or a key whose value is `undefined` (both read back as
`undefined`). -/

/-- A value of a plain header mapping: `string[] | string | undefined`. -/
inductive HVal
  | undef
  | str (s : String)
  | arr (l : List String)
deriving DecidableEq, Repr

/-- The `PolymorphicRequestHeaders` shapes: an append-capable `Headers`
object (kept as its ordered entry list), an ordered pair sequence, or a
plain mapping. -/
inductive PolymorphicRequestHeaders
  | headersObj (entries : List (String × String))
  | pairs (entries : List (String × String))
  | plain (m : String → HVal)

/-- JavaScript truthiness of a `string | undefined` value. -/
def strTruthy : Option String → Bool
  | some s => s ≠ ""
  | none => false

/-- `addTracingHeadersToFetchRequest` from `packages/utils/src/tracing.ts`.
`headers` is the resolved header container (the request's own `Headers`
object for a `Request` input, otherwise `options.headers`); `none` means
no headers were supplied. -/
def addTracingHeadersToFetchRequest (headers : Option PolymorphicRequestHeaders)
    (sentryTraceHeader : String) (sentryBaggageHeader : Option String) :
    PolymorphicRequestHeaders :=
  match headers with
  | none =>
    .plain (fun k =>
      if k = "sentry-trace" then .str sentryTraceHeader
      else if k = "baggage" then
        (match sentryBaggageHeader with
         | some s => .str s
         | none => .undef)
      else .undef)
  | some (.headersObj entries) =>
    let newHeaders := entries ++ [("sentry-trace", sentryTraceHeader)]
    .headersObj
      (if strTruthy sentryBaggageHeader then
        newHeaders ++ [("baggage", sentryBaggageHeader.getD "")]
      else newHeaders)
  | some (.pairs entries) =>
    let newHeaders := entries ++ [("sentry-trace", sentryTraceHeader)]
    .pairs
      (if strTruthy sentryBaggageHeader then
        newHeaders ++ [("baggage", sentryBaggageHeader.getD "")]
      else newHeaders)
  | some (.plain m) =>
    let existingBaggageHeader := m "baggage"
    let fromExisting : List String :=
      match existingBaggageHeader with
      | .arr l => l
      | .str s => if s = "" then [] else [s]
      | .undef => []
    let newBaggageHeaders : List String :=
      if strTruthy sentryBaggageHeader then
        fromExisting ++ [sentryBaggageHeader.getD ""]
      else fromExisting
    .plain (fun k =>
      if k = "sentry-trace" then .str sentryTraceHeader
      else if k = "baggage" then
        (if newBaggageHeaders.length > 0 then
          .str (String.intercalate "," newBaggageHeaders)
        else .undef)
      else m k)

/-! ## C2 -/

/-- C2: injecting into a plain mapping that already has a baggage value (a
non-empty single string or an array of strings) preserves every
pre-existing key other than the two trace keys, and the resulting baggage
value is the comma-join of all pre-existing baggage entries followed by
the injected fragment (when truthy), with the key set to absent rather
than an empty string when the combined list is empty. -/
theorem addTracingHeaders_plain_merge (m : String → HVal) (tr : String)
    (frag : Option String) (existing : List String)
    (hx : m "baggage" = .arr existing ∨
      (∃ s, s ≠ "" ∧ m "baggage" = .str s ∧ existing = [s])) :
    ∃ m2, addTracingHeadersToFetchRequest (some (.plain m)) tr frag = .plain m2 ∧
      (∀ k, k ≠ "sentry-trace" → k ≠ "baggage" → m2 k = m k) ∧
      (let combined :=
        existing ++ (if strTruthy frag then [frag.getD ""] else [])
       m2 "baggage" =
        if combined = [] then .undef else .str (String.intercalate "," combined)) := by
  have hfe :
      (match m "baggage" with
       | .arr l => l
       | .str s => if s = "" then [] else [s]
       | .undef => ([] : List String)) = existing := by
    rcases hx with hx | ⟨s, hs, hx, hex⟩
    · rw [hx]
    · rw [hx, hex]
      simp [hs]
  refine ⟨_, rfl, ?_, ?_⟩
  · intro k hk1 hk2
    simp only [addTracingHeadersToFetchRequest, if_neg hk1, if_neg hk2]
  · simp only [addTracingHeadersToFetchRequest, hfe]
    simp only [if_pos rfl, if_neg (by decide : ("baggage" : String) ≠ "sentry-trace")]
    by_cases hf : strTruthy frag = true
    · have hne : existing ++ [frag.getD ""] ≠ [] := by simp
      have hlen : (existing ++ [frag.getD ""]).length > 0 := by simp
      simp [hf, hne, hlen]
    · rw [Bool.not_eq_true] at hf
      by_cases he : existing = []
      · subst he; simp [hf]
      · have hlen : existing.length > 0 := List.length_pos.mpr he
        simp [hf, he, hlen]

/-- Witness for C2's theorem: a mapping holding `baggage: "a=1"` and an
extra key `x: "1"` merged with the fragment `"sentry-release=r1"`. -/
theorem addTracingHeaders_plain_merge_witness :
    (∃ s, s ≠ "" ∧
        (fun k => if k = "baggage" then HVal.str "a=1"
                  else if k = "x" then HVal.str "1" else HVal.undef) "baggage" =
          HVal.str s ∧ ["a=1"] = [s]) ∧
    ∃ m2,
      addTracingHeadersToFetchRequest
        (some (.plain (fun k => if k = "baggage" then HVal.str "a=1"
                  else if k = "x" then HVal.str "1" else HVal.undef)))
        "t-s-1" (some "sentry-release=r1") = .plain m2 ∧
      m2 "x" = HVal.str "1" ∧ m2 "baggage" = HVal.str "a=1,sentry-release=r1" := by
  constructor
  · exact ⟨"a=1", by decide, by simp, rfl⟩
  · obtain ⟨m2, hm2, hpres, hbag⟩ :=
      addTracingHeaders_plain_merge
        (fun k => if k = "baggage" then HVal.str "a=1"
                  else if k = "x" then HVal.str "1" else HVal.undef)
        "t-s-1" (some "sentry-release=r1") ["a=1"]
        (Or.inr ⟨"a=1", by decide, by simp, rfl⟩)
    refine ⟨m2, hm2, ?_, ?_⟩
    · rw [hpres "x" (by decide) (by decide)]
      simp
    · simpa using hbag

/-! ## C9 -/

/-- C9: with no headers supplied the function returns (it is total, hence
never throws) a minimal plain mapping whose only populated keys are
`sentry-trace` and — provided the serialized baggage fragment is
non-empty — `baggage`.  The hypothesis `frag ≠ some ""` records the
contract of the external DSC serializer (spec §4.2: an empty DSC
serializes to an absent fragment, never an empty string). -/
theorem addTracingHeaders_noHeaders_minimal (tr : String) (frag : Option String)
    (hfrag : frag ≠ some "") :
    ∃ m2, addTracingHeadersToFetchRequest none tr frag = .plain m2 ∧
      m2 "sentry-trace" = .str tr ∧
      (∀ s, frag = some s → s ≠ "" ∧ m2 "baggage" = .str s) ∧
      (frag = none → m2 "baggage" = .undef) ∧
      (∀ k, k ≠ "sentry-trace" → k ≠ "baggage" → m2 k = .undef) := by
  refine ⟨_, rfl, ?_, ?_, ?_, ?_⟩
  · simp [addTracingHeadersToFetchRequest]
  · intro s hs
    subst hs
    refine ⟨fun h => hfrag (by rw [h]), ?_⟩
    simp [addTracingHeadersToFetchRequest]
  · intro h
    subst h
    simp [addTracingHeadersToFetchRequest]
  · intro k hk1 hk2
    simp [addTracingHeadersToFetchRequest, if_neg hk1, if_neg hk2]

/-- Witness for C9's theorem at a concrete trace header and fragment. -/
theorem addTracingHeaders_noHeaders_minimal_witness :
    ((some "sentry-env=prod" : Option String) ≠ some "") ∧
    ∃ m2, addTracingHeadersToFetchRequest none "t-s-1" (some "sentry-env=prod") = .plain m2 ∧
      m2 "sentry-trace" = .str "t-s-1" ∧ m2 "baggage" = .str "sentry-env=prod" ∧
      m2 "x" = .undef := by
  refine ⟨by decide, ?_⟩
  obtain ⟨m2, hm2, htr, hbag, _, hrest⟩ :=
    addTracingHeaders_noHeaders_minimal "t-s-1" (some "sentry-env=prod") (by decide)
  exact ⟨m2, hm2, htr, (hbag "sentry-env=prod" rfl).2,
    hrest "x" (by decide) (by decide)⟩

/-! ## Instrumented SvelteKit fetch (packages/sveltekit/src/client/load.ts) -/

/-- Whether the first list is a prefix of the second (on characters). -/
def charsPrefixOf : List Char → List Char → Bool
  | [], _ => true
  | _ :: _, [] => false
  | c :: cs, d :: ds => c = d && charsPrefixOf cs ds

/-- Whether the first list occurs contiguously inside the second. -/
def charsInfixOf (needle : List Char) : List Char → Bool
  | [] => charsPrefixOf needle []
  | d :: ds => charsPrefixOf needle (d :: ds) || charsInfixOf needle ds

/-- A `tracePropagationTargets` entry: either a plain string or the
root-relative-path regular expression of the default list. -/
inductive UrlPattern
  | str (s : String)
  | rootRelative
deriving DecidableEq, Repr

/-- Modelled from the spec: `stringMatchesSomePattern` of `@sentry/utils`
(not part of the sources).  A url matches the allow-list when it matches
some pattern; a string pattern matches by containment and the default
regular expression matches urls beginning with a `/` (same-origin
root-relative paths). -/
def isMatchingPattern (url : String) : UrlPattern → Bool
  | .str s => charsInfixOf s.data url.data
  | .rootRelative => charsPrefixOf ['/'] url.data

/-- Modelled from the spec: see `isMatchingPattern`. -/
def stringMatchesSomePattern (url : String) (patterns : List UrlPattern) : Bool :=
  patterns.any (isMatchingPattern url)

/-- The default allow-list `['localhost', /^\//]` of
`instrumentSvelteKitFetch`. -/
def defaultTracePropagationTargets : List UrlPattern :=
  [.str "localhost", .rootRelative]

/-- The configuration read by `instrumentSvelteKitFetch` from the client's
`BrowserTracing` and `BreadCrumbs` integrations.
`browserTracingInstalled` is whether `browserTracingOptions` is defined;
`customShouldCreateSpan` is `shouldCreateSpanForRequest` when it is set to
a function. -/
structure FetchInstrumentationConfig where
  browserTracingInstalled : Bool
  traceFetch : Bool
  tracePropagationTargets : Option (List UrlPattern)
  customShouldCreateSpan : Option (String → Bool)
  breadcrumbsFetchEnabled : Bool

/-- `shouldTraceFetch` of `instrumentSvelteKitFetch`:
`browserTracingOptions && browserTracingOptions.traceFetch`. -/
def shouldTraceFetch (cfg : FetchInstrumentationConfig) : Bool :=
  cfg.browserTracingInstalled && cfg.traceFetch

/-- `shouldCreateSpan` of `instrumentSvelteKitFetch`: the configured
`shouldCreateSpanForRequest` when `BrowserTracing` is installed and one
is set, else the constant `shouldTraceFetch`. -/
def shouldCreateSpan (cfg : FetchInstrumentationConfig) (url : String) : Bool :=
  if cfg.browserTracingInstalled then
    match cfg.customShouldCreateSpan with
    | some f => f url
    | none => shouldTraceFetch cfg
  else shouldTraceFetch cfg

/-- `shouldAttachHeaders` of `instrumentSvelteKitFetch`:
`!!shouldTraceFetch && stringMatchesSomePattern(url,
browserTracingOptions.tracePropagationTargets || ['localhost', /^\//])`. -/
def shouldAttachHeaders (cfg : FetchInstrumentationConfig) (url : String) : Bool :=
  shouldTraceFetch cfg &&
    stringMatchesSomePattern url
      (cfg.tracePropagationTargets.getD defaultTracePropagationTargets)

/-- `rawUrl.match(/sentry_key/)`: the url contains the ingestion marker. -/
def urlHasSentryKey (url : String) : Bool :=
  charsInfixOf ("sentry_key" : String).data url.data

/-- What the proxy's `apply` trap does with one fetch call: pass the call
through untouched, or run the instrumentation path with the given
header-injection, span-creation and breadcrumb choices. -/
structure FetchDecision where
  passthrough : Bool
  injectHeaders : Bool
  createSpan : Bool
  recordBreadcrumb : Bool
deriving DecidableEq, Repr

/-- The control decisions taken by the `apply` trap of
`instrumentSvelteKitFetch` for a call with the given raw url, method and
active-transaction state: internal requests (url containing `sentry_key`,
method `POST`) are passed through untouched; otherwise headers are
injected iff `shouldAttachHeaders` and `shouldCreateSpan` hold and a
transaction is active, a span is created iff `shouldCreateSpan` holds,
and a breadcrumb is recorded iff the `BreadCrumbs` integration has fetch
breadcrumbs enabled. -/
def instrumentedFetchDecision (cfg : FetchInstrumentationConfig)
    (rawUrl method : String) (hasActiveTransaction : Bool) : FetchDecision :=
  if urlHasSentryKey rawUrl && (method == "POST") then
    { passthrough := true, injectHeaders := false, createSpan := false,
      recordBreadcrumb := false }
  else
    let attachHeaders := shouldAttachHeaders cfg rawUrl
    let attachSpan := shouldCreateSpan cfg rawUrl
    { passthrough := false
      injectHeaders := attachHeaders && attachSpan && hasActiveTransaction
      createSpan := attachSpan
      recordBreadcrumb := cfg.breadcrumbsFetchEnabled }

/-! ## C5 -/

/-- C5: trace headers are only injected when fetch-tracing is enabled and
the url matches the configured (or default) `tracePropagationTargets`
allow-list; with targets `["localhost"]`, an active transaction and span
creation enabled, a fetch to `https://localhost/api` gets headers
injected while a fetch to `https://evil.example` does not. -/
theorem shouldAttachHeaders_gates_injection :
    (∀ cfg rawUrl method hasTx,
      (instrumentedFetchDecision cfg rawUrl method hasTx).injectHeaders = true →
        shouldTraceFetch cfg = true ∧
        stringMatchesSomePattern rawUrl
          (cfg.tracePropagationTargets.getD defaultTracePropagationTargets) = true) ∧
    (instrumentedFetchDecision
      ⟨true, true, some [.str "localhost"], none, true⟩
      "https://localhost/api" "GET" true).injectHeaders = true ∧
    (instrumentedFetchDecision
      ⟨true, true, some [.str "localhost"], none, true⟩
      "https://evil.example" "GET" true).injectHeaders = false := by
  refine ⟨?_, by decide, by decide⟩
  intro cfg rawUrl method hasTx h
  unfold instrumentedFetchDecision at h
  by_cases hkey : (urlHasSentryKey rawUrl && (method == "POST")) = true
  · rw [if_pos hkey] at h
    simp at h
  · rw [if_neg hkey] at h
    simp only [Bool.and_eq_true] at h
    obtain ⟨⟨hattach, _⟩, _⟩ := h
    unfold shouldAttachHeaders at hattach
    simpa [Bool.and_eq_true] using hattach

/-- Witness for C5's theorem: the universal part applied at the concrete
localhost configuration and url. -/
theorem shouldAttachHeaders_gates_injection_witness :
    ((instrumentedFetchDecision ⟨true, true, some [.str "localhost"], none, true⟩
        "https://localhost/api" "GET" true).injectHeaders = true) ∧
    (shouldTraceFetch ⟨true, true, some [.str "localhost"], none, true⟩ = true ∧
      stringMatchesSomePattern "https://localhost/api"
        ((some [UrlPattern.str "localhost"]).getD defaultTracePropagationTargets) = true) :=
  ⟨by decide,
   shouldAttachHeaders_gates_injection.1
     ⟨true, true, some [.str "localhost"], none, true⟩
     "https://localhost/api" "GET" true (by decide)⟩

/-! ## C6 -/

/-- C6: a fetch whose raw url contains the ingestion marker `sentry_key`
with method `POST` is passed through to the original fetch untouched (no
span, no header injection, no breadcrumb); every other call takes the
instrumentation path. -/
theorem sentryKey_bypass (cfg : FetchInstrumentationConfig)
    (rawUrl method : String) (hasTx : Bool) :
    (urlHasSentryKey rawUrl = true ∧ method = "POST" →
      instrumentedFetchDecision cfg rawUrl method hasTx =
        { passthrough := true, injectHeaders := false, createSpan := false,
          recordBreadcrumb := false }) ∧
    (¬(urlHasSentryKey rawUrl = true ∧ method = "POST") →
      (instrumentedFetchDecision cfg rawUrl method hasTx).passthrough = false) := by
  constructor
  · rintro ⟨hkey, hpost⟩
    subst hpost
    unfold instrumentedFetchDecision
    rw [if_pos (by simp [hkey])]
  · intro hno
    unfold instrumentedFetchDecision
    rw [if_neg (by simpa [Bool.and_eq_true, beq_iff_eq] using hno)]

/-- Witness for C6's theorem: a concrete ingestion request is bypassed and
a concrete ordinary request is not. -/
theorem sentryKey_bypass_witness :
    (urlHasSentryKey "https://o1.ingest.sentry.io/api/1/envelope/?sentry_key=abc" = true ∧
      "POST" = "POST") ∧
    instrumentedFetchDecision ⟨true, true, none, none, true⟩
      "https://o1.ingest.sentry.io/api/1/envelope/?sentry_key=abc" "POST" true =
      { passthrough := true, injectHeaders := false, createSpan := false,
        recordBreadcrumb := false } ∧
    (¬(urlHasSentryKey "https://localhost/api" = true ∧ "GET" = "POST") ∧
      (instrumentedFetchDecision ⟨true, true, none, none, true⟩
        "https://localhost/api" "GET" true).passthrough = false) := by
  refine ⟨⟨by decide, rfl⟩, ?_, by decide, ?_⟩
  · exact (sentryKey_bypass ⟨true, true, none, none, true⟩
      "https://o1.ingest.sentry.io/api/1/envelope/?sentry_key=abc" "POST" true).1
      ⟨by decide, rfl⟩
  · exact (sentryKey_bypass ⟨true, true, none, none, true⟩
      "https://localhost/api" "GET" true).2 (by decide)

/-! ## `sentryHandle` (packages/sveltekit/src/server/index.ts) -/

/-- The parts of a SvelteKit `RequestEvent` read by `sentryHandle`:
`event.request.method`, `event.route.id` (which is `string | null`),
`event.url.pathname`, and the two inbound trace headers (`null` when the
header is absent). -/
structure ServerRequestEvent where
  method : String
  routeId : Option String
  urlPathname : String
  sentryTraceHeader : Option String
  baggageHeader : Option String
deriving DecidableEq, Repr

/-- JavaScript template-literal stringification of a `string | null`
value: `null` interpolates as the four characters `null`. -/
def jsTemplateOptString : Option String → String
  | some s => s
  | none => "null"

/-- A dynamic sampling context: an ordered string-to-string mapping. -/
abbrev DSC := List (String × String)

/-- The transaction context object built by `sentryHandle` and passed to
`trace` (its `op`, `name`, `status`, spread traceparent data, and
`metadata.dynamicSamplingContext`). -/
structure HandleTraceCtx where
  op : String
  name : String
  status : String
  traceparentData : Option TraceparentData
  metadataSource : String
  metadataDsc : Option DSC
deriving DecidableEq, Repr

/-- The `sentry-trace` parse performed by `sentryHandle`:
`sentryTraceHeader ? extractTraceparentData(sentryTraceHeader) :
undefined` (a `null` or empty header is falsy). -/
def sentryHandleTraceparentData (ev : ServerRequestEvent) : Option TraceparentData :=
  match ev.sentryTraceHeader with
  | some h => if h = "" then none else extractTraceparentData h
  | none => none

/-- The transaction context built by `sentryHandle`
(packages/sveltekit/src/server/index.ts).  `dsc` is the result of the
external collaborator `baggageHeaderToDynamicSamplingContext(baggageHeader)`
(`@sentry/utils`, not part of the sources); `none` is `undefined`. -/
def sentryHandleTraceCtx (ev : ServerRequestEvent) (dsc : Option DSC) : HandleTraceCtx :=
  let traceparentData := sentryHandleTraceparentData ev
  { op := "http.server"
    name := ev.method ++ " " ++ jsTemplateOptString ev.routeId
    status := "ok"
    traceparentData := traceparentData
    metadataSource := "route"
    metadataDsc := if traceparentData.isSome && dsc.isNone then some [] else dsc }

/-! ## C7 -/

/-- C7 counterexample: for a request with no route id (`event.route.id`
is `null`) and raw path `/foo`, the transaction is named `GET null` — the
route id interpolated as the literal string `null` — and the raw url path
does not occur in the name at all, so the name does not fall back to the
raw url path. -/
theorem sentryHandle_name_counterexample :
    (sentryHandleTraceCtx ⟨"GET", none, "/foo", none, none⟩ none).name = "GET null" ∧
    charsInfixOf ("/foo" : String).data
      ((sentryHandleTraceCtx ⟨"GET", none, "/foo", none, none⟩ none).name).data = false := by
  constructor
  · rfl
  · decide

/-- C7 (amended): the span/transaction opened by `sentryHandle` is always
named `<method> <route id>`; when a route id is known that is the method
followed by the route identifier, and when no route identifier is
available the interpolation produces the literal string `null` — there is
no fallback to the raw url path. -/
theorem sentryHandle_name (ev : ServerRequestEvent) (dsc : Option DSC) :
    (∀ r, ev.routeId = some r →
      (sentryHandleTraceCtx ev dsc).name = ev.method ++ " " ++ r) ∧
    (ev.routeId = none →
      (sentryHandleTraceCtx ev dsc).name = ev.method ++ " " ++ "null") := by
  constructor
  · intro r hr
    simp [sentryHandleTraceCtx, jsTemplateOptString, hr]
  · intro hr
    simp [sentryHandleTraceCtx, jsTemplateOptString, hr]

/-- Witness for C7's amended theorem at concrete events with and without
a route id. -/
theorem sentryHandle_name_witness :
    ((⟨"GET", some "/blog/[slug]", "/blog/x", none, none⟩ : ServerRequestEvent).routeId =
        some "/blog/[slug]" ∧
      (sentryHandleTraceCtx ⟨"GET", some "/blog/[slug]", "/blog/x", none, none⟩ none).name =
        "GET" ++ " " ++ "/blog/[slug]") ∧
    ((⟨"GET", none, "/foo", none, none⟩ : ServerRequestEvent).routeId = none ∧
      (sentryHandleTraceCtx ⟨"GET", none, "/foo", none, none⟩ none).name =
        "GET" ++ " " ++ "null") :=
  ⟨⟨rfl, (sentryHandle_name ⟨"GET", some "/blog/[slug]", "/blog/x", none, none⟩ none).1
      "/blog/[slug]" rfl⟩,
   ⟨rfl, (sentryHandle_name ⟨"GET", none, "/foo", none, none⟩ none).2 rfl⟩⟩

/-! ## C10 -/

/-- C10: when the inbound `sentry-trace` header parses to traceparent data
but the baggage header yields no dynamic sampling context, `sentryHandle`
freezes the new transaction's `metadata.dynamicSamplingContext` to the
empty mapping; when no traceparent data is present, the parsed DSC
(possibly absent) is passed through unchanged. -/
theorem sentryHandle_dsc (ev : ServerRequestEvent) (dsc : Option DSC) :
    ((sentryHandleTraceparentData ev).isSome = true ∧ dsc = none →
      (sentryHandleTraceCtx ev dsc).metadataDsc = some []) ∧
    (sentryHandleTraceparentData ev = none →
      (sentryHandleTraceCtx ev dsc).metadataDsc = dsc) := by
  constructor
  · rintro ⟨htp, hdsc⟩
    subst hdsc
    simp [sentryHandleTraceCtx, htp]
  · intro htp
    simp [sentryHandleTraceCtx, htp]

/-- Witness for C10's theorem: a request carrying a valid `sentry-trace`
header and no baggage-derived DSC gets the frozen empty mapping, and a
request with no trace header passes a concrete DSC through. -/
theorem sentryHandle_dsc_witness :
    ((sentryHandleTraceparentData
        ⟨"GET", some "/", "/", some "0123456789abcdef0123456789abcdef-0123456789abcdef-1",
          none⟩).isSome = true ∧
      (sentryHandleTraceCtx
        ⟨"GET", some "/", "/", some "0123456789abcdef0123456789abcdef-0123456789abcdef-1",
          none⟩ none).metadataDsc = some []) ∧
    (sentryHandleTraceparentData ⟨"GET", some "/", "/", none, none⟩ = none ∧
      (sentryHandleTraceCtx ⟨"GET", some "/", "/", none, none⟩
        (some [("trace_id", "abc")])).metadataDsc = some [("trace_id", "abc")]) := by
  refine ⟨⟨by decide, ?_⟩, ⟨rfl, ?_⟩⟩
  · exact (sentryHandle_dsc
      ⟨"GET", some "/", "/", some "0123456789abcdef0123456789abcdef-0123456789abcdef-1",
        none⟩ none).1 ⟨by decide, rfl⟩
  · exact (sentryHandle_dsc ⟨"GET", some "/", "/", none, none⟩
      (some [("trace_id", "abc")])).2 rfl

/-! ## `wrapLoadWithSentry` (packages/sveltekit/src/client/load.ts) -/

/-- The parts of a SvelteKit `LoadEvent` read by `wrapLoadWithSentry`:
`event.route.id` (`string | null`) and `event.url.pathname`. -/
structure LoadEventModel where
  routeId : Option String
  urlPathname : String
deriving DecidableEq, Repr

/-- The span context built by `wrapLoadWithSentry` and passed to `trace`
(its `op`, `name`, `status` and `metadata.source`). -/
structure LoadTraceCtx where
  op : String
  name : String
  status : String
  metadataSource : String
deriving DecidableEq, Repr

/-- The span context built by the `apply` trap of `wrapLoadWithSentry`:
`op: 'function.sveltekit.load'`, `name: routeId ? routeId :
event.url.pathname` (a `null` or empty route id is falsy),
`metadata.source: routeId ? 'route' : 'url'`. -/
def wrapLoadTraceCtx (ev : LoadEventModel) : LoadTraceCtx :=
  { op := "function.sveltekit.load"
    name :=
      match ev.routeId with
      | some r => if r = "" then ev.urlPathname else r
      | none => ev.urlPathname
    status := "ok"
    metadataSource :=
      match ev.routeId with
      | some r => if r = "" then "url" else "route"
      | none => "url" }

/-! ## C8 -/

/-- C8 counterexample: the span opened around a load call carries the
operation name `function.sveltekit.load`, not `function.load` as the
claim states, already at a concrete event with a resolved route id. -/
theorem wrapLoad_op_counterexample :
    (wrapLoadTraceCtx ⟨some "/blog/[slug]", "/blog/x"⟩).op = "function.sveltekit.load" ∧
    (wrapLoadTraceCtx ⟨some "/blog/[slug]", "/blog/x"⟩).op ≠ "function.load" := by
  constructor
  · rfl
  · decide

/-- C8 (amended): the child span opened by `wrapLoadWithSentry` is named
after the resolved route id, falling back to the url pathname when the
route id is absent (or empty), and carries the operation name
`function.sveltekit.load`. -/
theorem wrapLoad_name_op (ev : LoadEventModel) :
    (wrapLoadTraceCtx ev).op = "function.sveltekit.load" ∧
    (∀ r, ev.routeId = some r → r ≠ "" → (wrapLoadTraceCtx ev).name = r) ∧
    (ev.routeId = none → (wrapLoadTraceCtx ev).name = ev.urlPathname) := by
  refine ⟨rfl, ?_, ?_⟩
  · intro r hr hne
    simp [wrapLoadTraceCtx, hr, hne]
  · intro hr
    simp [wrapLoadTraceCtx, hr]

/-- Witness for C8's amended theorem at concrete events with and without
a route id. -/
theorem wrapLoad_name_op_witness :
    ((⟨some "/blog/[slug]", "/blog/x"⟩ : LoadEventModel).routeId = some "/blog/[slug]" ∧
      ("/blog/[slug]" : String) ≠ "" ∧
      (wrapLoadTraceCtx ⟨some "/blog/[slug]", "/blog/x"⟩).name = "/blog/[slug]") ∧
    ((⟨none, "/foo"⟩ : LoadEventModel).routeId = none ∧
      (wrapLoadTraceCtx ⟨none, "/foo"⟩).name = "/foo") :=
  ⟨⟨rfl, by decide,
    (wrapLoad_name_op ⟨some "/blog/[slug]", "/blog/x"⟩).2.1 "/blog/[slug]" rfl (by decide)⟩,
   ⟨rfl, (wrapLoad_name_op ⟨none, "/foo"⟩).2.2 rfl⟩⟩

/-! ## `sendErrorToSentry` (both packages/sveltekit/src/server/index.ts
and packages/sveltekit/src/client/load.ts) -/

/-- A JavaScript primitive value. -/
inductive JSPrim
  | str (s : String)
  | num (n : Int)
  | boolean (b : Bool)
  | null
  | undef
deriving DecidableEq, Repr

/-- A JavaScript value as thrown by a resolver or load callback: a
primitive, an ordinary object (identified by its identity), or a
primitive wrapper object. -/
inductive JSErrVal
  | prim (p : JSPrim)
  | obj (id : Nat)
  | wrappedPrim (p : JSPrim)
deriving DecidableEq, Repr

/-- Modelled from the spec: `objectify` of `@sentry/utils` (not part of
the sources) wraps a primitive in its equivalent wrapper class (so a seen
flag can be stored on it) and returns object inputs unchanged. -/
def objectify : JSErrVal → JSErrVal
  | .prim p => .wrappedPrim p
  | .obj id => .obj id
  | .wrappedPrim p => .wrappedPrim p

/-- The mechanism data attached by `addExceptionMechanism` in the scope's
event processor. -/
structure Mechanism where
  mechType : String
  handled : Bool
  dataFunction : String
deriving DecidableEq, Repr

/-- The observable effect of one `sendErrorToSentry` call: the exceptions
handed to the `captureException` collaborator (with their mechanism) and
the value returned to `trace`, which `trace` re-throws. -/
structure ErrorReport where
  captured : List (JSErrVal × Mechanism)
  rethrown : JSErrVal
deriving DecidableEq, Repr

/-- `sendErrorToSentry` from packages/sveltekit/src/server/index.ts:
objectify the thrown value, capture it exactly once with mechanism
`{type: 'sveltekit', handled: false, data: {function: 'handle'}}`, and
return the objectified error. -/
def sendErrorToSentryHandle (e : JSErrVal) : ErrorReport :=
  let objectifiedErr := objectify e
  { captured := [(objectifiedErr, ⟨"sveltekit", false, "handle"⟩)]
    rethrown := objectifiedErr }

/-- `sendErrorToSentry` from packages/sveltekit/src/client/load.ts: as
`sendErrorToSentryHandle` but with `data: {function: 'load'}`. -/
def sendErrorToSentryLoad (e : JSErrVal) : ErrorReport :=
  let objectifiedErr := objectify e
  { captured := [(objectifiedErr, ⟨"sveltekit", false, "load"⟩)]
    rethrown := objectifiedErr }

/-! ## C4 -/

/-- C4: for every thrown value, each wrapper captures exactly one
exception, tagged with mechanism type `sveltekit`, `handled: false`, and
a `data.function` of `handle` (server handle wrapper) respectively `load`
(load wrapper); the re-thrown value is the thrown object itself when an
object was thrown, and the wrapper object of the thrown primitive when a
primitive was thrown — the error is never swallowed. -/
theorem sendErrorToSentry_captures_and_rethrows (e : JSErrVal) :
    (sendErrorToSentryHandle e).captured.length = 1 ∧
    (sendErrorToSentryLoad e).captured.length = 1 ∧
    (∀ c ∈ (sendErrorToSentryHandle e).captured,
      c.2.mechType = "sveltekit" ∧ c.2.handled = false ∧ c.2.dataFunction = "handle") ∧
    (∀ c ∈ (sendErrorToSentryLoad e).captured,
      c.2.mechType = "sveltekit" ∧ c.2.handled = false ∧ c.2.dataFunction = "load") ∧
    (∀ id, e = .obj id →
      (sendErrorToSentryHandle e).rethrown = e ∧ (sendErrorToSentryLoad e).rethrown = e) ∧
    (∀ p, e = .wrappedPrim p →
      (sendErrorToSentryHandle e).rethrown = e ∧ (sendErrorToSentryLoad e).rethrown = e) ∧
    (∀ p, e = .prim p →
      (sendErrorToSentryHandle e).rethrown = .wrappedPrim p ∧
      (sendErrorToSentryLoad e).rethrown = .wrappedPrim p) := by
  refine ⟨rfl, rfl, ?_, ?_, ?_, ?_, ?_⟩
  · intro c hc
    simp only [sendErrorToSentryHandle, List.mem_singleton] at hc
    subst hc
    exact ⟨rfl, rfl, rfl⟩
  · intro c hc
    simp only [sendErrorToSentryLoad, List.mem_singleton] at hc
    subst hc
    exact ⟨rfl, rfl, rfl⟩
  · intro id he
    subst he
    exact ⟨rfl, rfl⟩
  · intro p he
    subst he
    exact ⟨rfl, rfl⟩
  · intro p he
    subst he
    exact ⟨rfl, rfl⟩

/-- Witness for C4's theorem: a thrown `Error`-like object is re-thrown
unchanged and a thrown string primitive is re-thrown as its wrapper. -/
theorem sendErrorToSentry_captures_and_rethrows_witness :
    ((JSErrVal.obj 0 = JSErrVal.obj 0) ∧
      (sendErrorToSentryHandle (.obj 0)).rethrown = JSErrVal.obj 0 ∧
      (sendErrorToSentryLoad (.obj 0)).rethrown = JSErrVal.obj 0) ∧
    ((JSErrVal.prim (.str "boom") = JSErrVal.prim (.str "boom")) ∧
      (sendErrorToSentryHandle (.prim (.str "boom"))).rethrown =
        JSErrVal.wrappedPrim (.str "boom") ∧
      (sendErrorToSentryLoad (.prim (.str "boom"))).rethrown =
        JSErrVal.wrappedPrim (.str "boom")) :=
  ⟨⟨rfl, (sendErrorToSentry_captures_and_rethrows (.obj 0)).2.2.2.2.1 0 rfl⟩,
   ⟨rfl, (sendErrorToSentry_captures_and_rethrows
      (.prim (.str "boom"))).2.2.2.2.2.2 (.str "boom") rfl⟩⟩

end SentrySvelteKit
